import Mathlib

/-!
Verification of the ball-in-rotating-hexagon physics core.

Shallow embedding of three source variants:
* `BallSim` — the shared vector helpers and the simulation loop of
  `src/ball.py` (variant A) together with the collision response of
  `src/ball_game/ball.py` (variant B, which additionally applies
  RESTITUTION to the reflected relative velocity).
* `MainC` — the `Ball.update`, `point_line_distance` and
  `handle_collision` code of `src/ball_game/main.py` (variant C).

Python floats are modelled as real numbers; `math.hypot x y` is
`Real.sqrt (x*x + y*y)`.  The module-level configuration constants of
the source files (hexagon center, circumradius, angular velocity,
restitution, wall friction) appear both as the literal constants and as
parameters of the step functions, mirroring the configuration surface;
the constants of each file are defined below with their source values.
-/

namespace BallSim

abbrev Vec := ℝ × ℝ

/-- `vector_add` from src/ball.py and src/ball_game/ball.py. -/
def vector_add (a b : Vec) : Vec := (a.1 + b.1, a.2 + b.2)

/-- `vector_sub` from src/ball.py and src/ball_game/ball.py. -/
def vector_sub (a b : Vec) : Vec := (a.1 - b.1, a.2 - b.2)

/-- `vector_mul` from src/ball.py and src/ball_game/ball.py. -/
def vector_mul (a : Vec) (s : ℝ) : Vec := (a.1 * s, a.2 * s)

/-- The dot product pattern `v[0]*w[0] + v[1]*w[1]` used inline in the
source loops. -/
def dot (a b : Vec) : ℝ := a.1 * b.1 + a.2 * b.2

/-- Squared length, used to phrase distance bounds without `sqrt`. -/
def len_sq (v : Vec) : ℝ := v.1 * v.1 + v.2 * v.2

/-- `vector_length` (`math.hypot`) from the source files. -/
noncomputable def vector_length (v : Vec) : ℝ := Real.sqrt (v.1 * v.1 + v.2 * v.2)

/-- `vector_normalize` from src/ball.py and src/ball_game/ball.py:
returns `(0, 0)` on the zero vector instead of dividing by zero. -/
noncomputable def vector_normalize (v : Vec) : Vec :=
  if vector_length v = 0 then (0, 0)
  else (v.1 / vector_length v, v.2 / vector_length v)

/-- `perpendicular` from the source files. -/
def perpendicular (v : Vec) : Vec := (-v.2, v.1)

/-- `reflect_velocity` from src/ball.py and src/ball_game/ball.py (the
collision loops inline the same formula). -/
def reflect_velocity (v n : Vec) : Vec :=
  (v.1 - 2 * dot v n * n.1, v.2 - 2 * dot v n * n.2)

/-- `closest_point_on_segment` from src/ball.py (identical in
src/ball_game/ball.py): clamped projection of `p` onto segment `ab`,
returning `a` for a zero-length segment. -/
noncomputable def closest_point_on_segment (p a b : Vec) : Vec :=
  let abx := b.1 - a.1
  let aby := b.2 - a.2
  let ab_len_sq := abx * abx + aby * aby
  if ab_len_sq = 0 then a
  else
    let t := ((p.1 - a.1) * abx + (p.2 - a.2) * aby) / ab_len_sq
    let t' := max 0 (min 1 t)
    (a.1 + t' * abx, a.2 + t' * aby)

/-- `compute_hexagon_vertices` from src/ball.py and
src/ball_game/ball.py (and `Hexagon.get_vertices` of
src/ball_game/main.py, whose `math.radians (60 * i)` equals
`i * (2 * pi / 6)`). -/
noncomputable def compute_hexagon_vertices (center : Vec) (radius angle_offset : ℝ) :
    List Vec :=
  (List.range 6).map (fun i : ℕ =>
    (center.1 + radius * Real.cos (angle_offset + (i : ℝ) * (2 * Real.pi / 6)),
     center.2 + radius * Real.sin (angle_offset + (i : ℝ) * (2 * Real.pi / 6))))

/-- BALL_RADIUS of src/ball.py and src/ball_game/ball.py. -/
def BALL_RADIUS : ℝ := 15

/-- GRAVITY of src/ball.py and src/ball_game/ball.py. -/
def GRAVITY : ℝ := 0.5

/-- AIR_FRICTION of src/ball.py and src/ball_game/ball.py. -/
def AIR_FRICTION : ℝ := 0.995

/-- RESTITUTION of src/ball.py and src/ball_game/ball.py (declared in
both; used only by src/ball_game/ball.py). -/
def RESTITUTION : ℝ := 0.8

/-- HEX_RADIUS of src/ball.py and src/ball_game/ball.py. -/
def HEX_RADIUS : ℝ := 250

/-- HEX_CENTER of src/ball.py and src/ball_game/ball.py. -/
def HEX_CENTER : Vec := (400, 300)

/-- ANGULAR_VELOCITY of src/ball.py and src/ball_game/ball.py. -/
def ANGULAR_VELOCITY : ℝ := 0.02

/-- WALL_FRICTION of src/ball.py and src/ball_game/ball.py. -/
def WALL_FRICTION : ℝ := 0.9

/-- The free-motion physics update of the main loops of src/ball.py
(lines 108-117) and src/ball_game/ball.py (lines 105-112): gravity is
added to the y velocity, both components are damped by AIR_FRICTION,
and the position is advanced by the updated velocity. -/
def physics_update (pos vel : Vec) : Vec × Vec :=
  let vel1 : Vec := (vel.1, vel.2 + GRAVITY)
  let vel2 : Vec := (vel1.1 * AIR_FRICTION, vel1.2 * AIR_FRICTION)
  let pos2 : Vec := (pos.1 + vel2.1, pos.2 + vel2.2)
  (pos2, vel2)

/-- The collision normal of src/ball.py lines 136-140 and
src/ball_game/ball.py line 133: the normalized vector from the closest
edge point toward the ball center, with fallback `(0, -1)` when the
distance is zero. -/
noncomputable def collision_normal (dist_vec : Vec) : Vec :=
  if vector_length dist_vec = 0 then (0, -1) else vector_normalize dist_vec

/-- Wall contact-point velocity of src/ball.py lines 144-145 and
src/ball_game/ball.py lines 135-136: `perpendicular (closest - center)`
scaled by the angular velocity. -/
def wall_velocity_at (center : Vec) (ang_vel : ℝ) (closest : Vec) : Vec :=
  vector_mul (perpendicular (vector_sub closest center)) ang_vel

/-- Velocity response of src/ball.py lines 148-165: reflect the
relative velocity about `n`, override its tangential component with
`wall_friction` times the incoming tangential component, and re-add the
wall velocity.  No restitution factor appears in this variant. -/
def respondA (wall_friction : ℝ) (vel wall_vel n : Vec) : Vec :=
  let v_rel := vector_sub vel wall_vel
  let v_rel_normal := v_rel.1 * n.1 + v_rel.2 * n.2
  let v_rel_reflected : Vec :=
    (v_rel.1 - 2 * v_rel_normal * n.1, v_rel.2 - 2 * v_rel_normal * n.2)
  let tangent := perpendicular n
  let v_rel_tangent := (v_rel.1 * tangent.1 + v_rel.2 * tangent.2) * wall_friction
  let proj := v_rel_reflected.1 * tangent.1 + v_rel_reflected.2 * tangent.2
  let v_rel_after : Vec :=
    (v_rel_reflected.1 + tangent.1 * (v_rel_tangent - proj),
     v_rel_reflected.2 + tangent.2 * (v_rel_tangent - proj))
  vector_add v_rel_after wall_vel

/-- Velocity response of src/ball_game/ball.py lines 138-155: as in
src/ball.py, but the reflected relative velocity is scaled by
`restitution` before the tangential friction override. -/
def respondB (restitution wall_friction : ℝ) (vel wall_vel n : Vec) : Vec :=
  let v_rel := vector_sub vel wall_vel
  let v_rel_normal := v_rel.1 * n.1 + v_rel.2 * n.2
  let v_rel_reflected : Vec :=
    (v_rel.1 - 2 * v_rel_normal * n.1, v_rel.2 - 2 * v_rel_normal * n.2)
  let v_rel_res := vector_mul v_rel_reflected restitution
  let tangent := perpendicular n
  let v_rel_tangent := (v_rel.1 * tangent.1 + v_rel.2 * tangent.2) * wall_friction
  let proj := v_rel_res.1 * tangent.1 + v_rel_res.2 * tangent.2
  let v_rel_after : Vec :=
    (v_rel_res.1 + tangent.1 * (v_rel_tangent - proj),
     v_rel_res.2 + tangent.2 * (v_rel_tangent - proj))
  vector_add v_rel_after wall_vel

/-- One edge of the collision loop of src/ball.py lines 127-169: if the
closest point of the edge is within BALL_RADIUS of the ball center, the
velocity response `respondA` runs and the position is pushed along the
normal by the penetration depth plus 0.5. -/
noncomputable def resolve_edgeA (center : Vec) (ang_vel : ℝ) (pos vel a b : Vec) :
    Vec × Vec :=
  let closest := closest_point_on_segment pos a b
  let dist_vec := vector_sub pos closest
  let dist := vector_length dist_vec
  if dist < BALL_RADIUS then
    let n := collision_normal dist_vec
    let wall_vel := wall_velocity_at center ang_vel closest
    let vel2 := respondA WALL_FRICTION vel wall_vel n
    let pos2 := vector_add pos (vector_mul n (BALL_RADIUS - dist + 0.5))
    (pos2, vel2)
  else (pos, vel)

/-- One edge of the collision loop of src/ball_game/ball.py lines
124-159: as `resolve_edgeA`, but with the RESTITUTION factor of that
file in the velocity response. -/
noncomputable def resolve_edgeB (center : Vec) (ang_vel : ℝ) (pos vel a b : Vec) :
    Vec × Vec :=
  let closest := closest_point_on_segment pos a b
  let dist_vec := vector_sub pos closest
  let dist := vector_length dist_vec
  if dist < BALL_RADIUS then
    let n := collision_normal dist_vec
    let wall_vel := wall_velocity_at center ang_vel closest
    let vel2 := respondB RESTITUTION WALL_FRICTION vel wall_vel n
    let pos2 := vector_add pos (vector_mul n (BALL_RADIUS - dist + 0.5))
    (pos2, vel2)
  else (pos, vel)

/-- The six edges `(vertex i, vertex ((i+1) % 6))` of the rotated
hexagon, as iterated by the collision loops. -/
noncomputable def hexagon_edges (center : Vec) (radius angle : ℝ) :
    List (Vec × Vec) :=
  let vs := compute_hexagon_vertices center radius angle
  (List.range 6).map (fun i => (vs.getD i (0, 0), vs.getD ((i + 1) % 6) (0, 0)))

/-- The collision loop of src/ball.py: fold `resolve_edgeA` over the
edges, threading the mutated ball state. -/
noncomputable def collide_allA (center : Vec) (ang_vel : ℝ) (st : Vec × Vec)
    (edges : List (Vec × Vec)) : Vec × Vec :=
  edges.foldl (fun pv e => resolve_edgeA center ang_vel pv.1 pv.2 e.1 e.2) st

/-- One tick of the src/ball.py main loop (physics update, hexagon
rotation advance, collision loop), with the configuration constants as
parameters. -/
noncomputable def stepA (center : Vec) (radius angle ang_vel : ℝ) (pos vel : Vec) :
    Vec × Vec :=
  let st := physics_update pos vel
  let angle2 := angle + ang_vel
  collide_allA center ang_vel st (hexagon_edges center radius angle2)

end BallSim

namespace MainC

open BallSim (Vec vector_add vector_sub vector_mul dot len_sq vector_length
  vector_normalize perpendicular)

/-- GRAVITY of src/ball_game/main.py (a vector there). -/
def GRAVITY : Vec := (0, 0.5)

/-- DRAG_COEFF of src/ball_game/main.py. -/
def DRAG_COEFF : ℝ := 0.99

/-- FRICTION of src/ball_game/main.py. -/
def FRICTION : ℝ := 0.98

/-- Default `Ball.radius` of src/ball_game/main.py. -/
def ball_radius : ℝ := 15

/-- Ball state of src/ball_game/main.py (`pos`, `vel`, `acc`; the trail
list is cosmetic and outside the physics core). -/
structure BallState where
  pos : Vec
  vel : Vec
  acc : Vec

/-- `Ball.update` of src/ball_game/main.py lines 57-68: gravity is
accumulated into `acc`, the velocity is damped by DRAG_COEFF *before*
`acc` is added, the position advances by the updated velocity, and
`acc` resets to zero. -/
def ball_update (gravity_on : Bool) (s : BallState) : BallState :=
  let acc := if gravity_on then vector_add s.acc GRAVITY else s.acc
  let vel1 := vector_mul s.vel DRAG_COEFF
  let vel2 := vector_add vel1 acc
  let pos2 := vector_add s.pos vel2
  { pos := pos2, vel := vel2, acc := (0, 0) }

/-- `point_line_distance` of src/ball_game/main.py lines 122-130:
returns the distance from `point` to segment and the clamped
projection. -/
noncomputable def point_line_distance (point line_start line_end : Vec) : ℝ × Vec :=
  let line := vector_sub line_end line_start
  if vector_length line = 0 then
    (vector_length (vector_sub point line_start), line_start)
  else
    let t := max 0 (min 1 (dot (vector_sub point line_start) line / len_sq line))
    let projection := vector_add line_start (vector_mul line t)
    (vector_length (vector_sub point projection), projection)

/-- The collision normal of src/ball_game/main.py lines 143-144: the
normalized perpendicular of the edge direction (pygame's `normalize` is
only ever applied to the nonzero hexagon edges there). -/
noncomputable def edge_normal (p1 p2 : Vec) : Vec :=
  vector_normalize (perpendicular (vector_sub p2 p1))

/-- One edge of `handle_collision` of src/ball_game/main.py lines
136-170: edge-perpendicular normal, wall velocity along the normalized
perpendicular of the contact radius vector, reflection, elasticity
applied to the sum of reflection and wall velocity, friction applied to
the resulting full velocity along the wall tangent, and a penetration
push by exactly the overlap. -/
noncomputable def handle_collision_edge (hex_center : Vec)
    (rotation_speed elasticity : ℝ) (pos vel p1 p2 : Vec) : Vec × Vec :=
  let dc := point_line_distance pos p1 p2
  if dc.1 < ball_radius then
    let normal := edge_normal p1 p2
    let r_vec := vector_sub dc.2 hex_center
    let wall_tangent := vector_normalize (perpendicular r_vec)
    let wall_velocity := vector_mul wall_tangent (rotation_speed * vector_length r_vec)
    let relative_vel := vector_sub vel wall_velocity
    let d := dot relative_vel normal
    let reflection := vector_sub relative_vel (vector_mul normal (2 * d))
    let vel2 := vector_mul (vector_add reflection wall_velocity) elasticity
    let tangent_component := dot vel2 wall_tangent
    let vel3 := vector_sub vel2 (vector_mul wall_tangent ((1 - FRICTION) * tangent_component))
    let overlap := ball_radius - dc.1
    let pos2 := vector_add pos (vector_mul normal overlap)
    (pos2, vel3)
  else (pos, vel)

end MainC

namespace BallSim

theorem len_sq_nonneg (v : Vec) : 0 ≤ len_sq v := by
  have h1 : 0 ≤ v.1 * v.1 := mul_self_nonneg _
  have h2 : 0 ≤ v.2 * v.2 := mul_self_nonneg _
  simpa [len_sq] using add_nonneg h1 h2

theorem vector_length_nonneg (v : Vec) : 0 ≤ vector_length v :=
  Real.sqrt_nonneg _

theorem vector_length_mul_self (v : Vec) :
    vector_length v * vector_length v = len_sq v := by
  have := len_sq_nonneg v
  simpa [vector_length, len_sq] using Real.mul_self_sqrt (by simpa [len_sq] using this)

theorem vector_length_eval (x y r : ℝ) (hr : 0 ≤ r) (h : x * x + y * y = r * r) :
    vector_length (x, y) = r := by
  simp only [vector_length, h]
  exact Real.sqrt_mul_self hr

theorem vector_length_eq_zero_iff (v : Vec) : vector_length v = 0 ↔ len_sq v = 0 := by
  constructor
  · intro h
    have := vector_length_mul_self v
    rw [h] at this
    linarith
  · intro h
    simp only [vector_length]
    rw [show v.1 * v.1 + v.2 * v.2 = len_sq v from rfl, h, Real.sqrt_zero]

theorem len_sq_eq_zero_iff (v : Vec) : len_sq v = 0 ↔ v.1 = 0 ∧ v.2 = 0 := by
  constructor
  · intro h
    have h1 : 0 ≤ v.1 * v.1 := mul_self_nonneg _
    have h2 : 0 ≤ v.2 * v.2 := mul_self_nonneg _
    have e1 : v.1 * v.1 = 0 := by simp only [len_sq] at h; linarith
    have e2 : v.2 * v.2 = 0 := by simp only [len_sq] at h; linarith
    exact ⟨by nlinarith, by nlinarith⟩
  · rintro ⟨h1, h2⟩
    simp [len_sq, h1, h2]

theorem dot_perp_self (n : Vec) : dot n (perpendicular n) = 0 := by
  simp [dot, perpendicular]; ring

theorem dot_perp_self' (n : Vec) : dot (perpendicular n) n = 0 := by
  simp [dot, perpendicular]; ring

theorem vector_normalize_pos (v : Vec) (h : 0 < vector_length v) :
    vector_normalize v = (v.1 / vector_length v, v.2 / vector_length v) := by
  rw [vector_normalize, if_neg (ne_of_gt h)]

theorem vector_normalize_unit (v : Vec) (h : vector_length v ≠ 0) :
    dot (vector_normalize v) (vector_normalize v) = 1 := by
  have hpos : 0 < vector_length v := lt_of_le_of_ne (vector_length_nonneg v) (Ne.symm h)
  rw [vector_normalize_pos v hpos]
  have hms := vector_length_mul_self v
  have hne : vector_length v * vector_length v ≠ 0 := mul_ne_zero h h
  field_simp [dot]
  simpa [len_sq] using hms.symm

theorem collision_normal_unit (dv : Vec) :
    dot (collision_normal dv) (collision_normal dv) = 1 := by
  rw [collision_normal]
  by_cases h : vector_length dv = 0
  · rw [if_pos h]; norm_num [dot]
  · rw [if_neg h]; exact vector_normalize_unit dv h

theorem respondA_eq (f : ℝ) (v w n : Vec) : respondA f v w n = respondB 1 f v w n := by
  simp [respondA, respondB, vector_mul, vector_add, vector_sub]

theorem respondB_decomp (e f : ℝ) (v w n : Vec) (h : dot n n = 1) :
    respondB e f v w n =
      vector_add w (vector_add
        (vector_mul n (-(e * dot (vector_sub v w) n)))
        (vector_mul (perpendicular n) (f * dot (vector_sub v w) (perpendicular n)))) := by
  obtain ⟨n1, n2⟩ := n
  obtain ⟨v1, v2⟩ := v
  obtain ⟨w1, w2⟩ := w
  simp only [dot] at h
  simp only [respondB, vector_add, vector_sub, vector_mul, perpendicular, dot,
    Prod.mk.injEq]
  constructor
  · linear_combination (-(e * (v1 - w1))) * h
  · linear_combination (-(e * (v2 - w2))) * h

theorem respond_dot_normal (e f : ℝ) (v w n : Vec) (h : dot n n = 1) :
    dot (vector_sub (respondB e f v w n) w) n = -(e * dot (vector_sub v w) n) := by
  rw [respondB_decomp e f v w n h]
  obtain ⟨n1, n2⟩ := n
  obtain ⟨v1, v2⟩ := v
  obtain ⟨w1, w2⟩ := w
  simp only [dot] at h
  simp only [vector_add, vector_sub, vector_mul, perpendicular, dot]
  linear_combination (-e * (v1*n1 + v2*n2 - w1*n1 - w2*n2)) * h

theorem respond_dot_tangent (e f : ℝ) (v w n : Vec) (h : dot n n = 1) :
    dot (vector_sub (respondB e f v w n) w) (perpendicular n) =
      f * dot (vector_sub v w) (perpendicular n) := by
  rw [respondB_decomp e f v w n h]
  obtain ⟨n1, n2⟩ := n
  obtain ⟨v1, v2⟩ := v
  obtain ⟨w1, w2⟩ := w
  simp only [dot] at h
  simp only [vector_add, vector_sub, vector_mul, perpendicular, dot]
  linear_combination (f * (-v1*n2 + v2*n1 + w1*n2 - w2*n1)) * h

theorem len_sq_sub_expand (x y : Vec) :
    len_sq (vector_sub x y) = len_sq x - 2 * dot x y + len_sq y := by
  simp only [len_sq, vector_sub, dot]; ring

theorem closest_point_zero (p a b : Vec)
    (h : (b.1 - a.1) * (b.1 - a.1) + (b.2 - a.2) * (b.2 - a.2) = 0) :
    closest_point_on_segment p a b = a := by
  simp only [closest_point_on_segment]
  rw [if_pos h]

theorem closest_point_pos (p a b : Vec)
    (h : (b.1 - a.1) * (b.1 - a.1) + (b.2 - a.2) * (b.2 - a.2) ≠ 0) :
    closest_point_on_segment p a b =
      (a.1 + (max 0 (min 1 (((p.1 - a.1) * (b.1 - a.1) + (p.2 - a.2) * (b.2 - a.2)) /
          ((b.1 - a.1) * (b.1 - a.1) + (b.2 - a.2) * (b.2 - a.2))))) * (b.1 - a.1),
       a.2 + (max 0 (min 1 (((p.1 - a.1) * (b.1 - a.1) + (p.2 - a.2) * (b.2 - a.2)) /
          ((b.1 - a.1) * (b.1 - a.1) + (b.2 - a.2) * (b.2 - a.2))))) * (b.2 - a.2)) := by
  simp only [closest_point_on_segment]
  rw [if_neg h]

theorem sub_self_len_sq_zero (a b : Vec)
    (h : (b.1 - a.1) * (b.1 - a.1) + (b.2 - a.2) * (b.2 - a.2) = 0) :
    b.1 - a.1 = 0 ∧ b.2 - a.2 = 0 := by
  have := (len_sq_eq_zero_iff (vector_sub b a)).1 (by simpa [len_sq, vector_sub] using h)
  simpa [vector_sub] using this

theorem closest_point_on (p a b : Vec) :
    ∃ t : ℝ, 0 ≤ t ∧ t ≤ 1 ∧
      closest_point_on_segment p a b =
        (a.1 + t * (b.1 - a.1), a.2 + t * (b.2 - a.2)) := by
  by_cases h : (b.1 - a.1) * (b.1 - a.1) + (b.2 - a.2) * (b.2 - a.2) = 0
  · refine ⟨0, le_refl 0, zero_le_one, ?_⟩
    rw [closest_point_zero p a b h]
    simp
  · refine ⟨max 0 (min 1 (((p.1 - a.1) * (b.1 - a.1) + (p.2 - a.2) * (b.2 - a.2)) /
      ((b.1 - a.1) * (b.1 - a.1) + (b.2 - a.2) * (b.2 - a.2)))), le_max_left _ _, ?_, ?_⟩
    · exact max_le zero_le_one (min_le_left _ _)
    · exact closest_point_pos p a b h

theorem closest_point_obtuse (p a b : Vec) (s : ℝ) (hs0 : 0 ≤ s) (hs1 : s ≤ 1) :
    dot (vector_sub p (closest_point_on_segment p a b))
      (vector_sub (a.1 + s * (b.1 - a.1), a.2 + s * (b.2 - a.2))
        (closest_point_on_segment p a b)) ≤ 0 := by
  by_cases h : (b.1 - a.1) * (b.1 - a.1) + (b.2 - a.2) * (b.2 - a.2) = 0
  · rw [closest_point_zero p a b h]
    obtain ⟨h1, h2⟩ := sub_self_len_sq_zero a b h
    simp [dot, vector_sub, h1, h2]
  · rw [closest_point_pos p a b h]
    set L : ℝ := (b.1 - a.1) * (b.1 - a.1) + (b.2 - a.2) * (b.2 - a.2) with hL
    have hLpos : 0 < L := by
      have n1 := mul_self_nonneg (b.1 - a.1)
      have n2 := mul_self_nonneg (b.2 - a.2)
      rcases lt_or_eq_of_le (by rw [hL]; linarith : (0:ℝ) ≤ L) with h' | h'
      · exact h'
      · exact absurd h'.symm h
    set u : ℝ := ((p.1 - a.1) * (b.1 - a.1) + (p.2 - a.2) * (b.2 - a.2)) / L with hu
    set t : ℝ := max 0 (min 1 u) with ht
    have hdotu : (p.1 - a.1) * (b.1 - a.1) + (p.2 - a.2) * (b.2 - a.2) = u * L := by
      rw [hu]; field_simp
    have key : dot (vector_sub p (a.1 + t * (b.1 - a.1), a.2 + t * (b.2 - a.2)))
        (vector_sub (a.1 + s * (b.1 - a.1), a.2 + s * (b.2 - a.2))
          (a.1 + t * (b.1 - a.1), a.2 + t * (b.2 - a.2))) = L * ((s - t) * (u - t)) := by
      simp only [dot, vector_sub]
      have expand : (p.1 - (a.1 + t * (b.1 - a.1))) * (a.1 + s * (b.1 - a.1) - (a.1 + t * (b.1 - a.1)))
          + (p.2 - (a.2 + t * (b.2 - a.2))) * (a.2 + s * (b.2 - a.2) - (a.2 + t * (b.2 - a.2)))
          = (s - t) * (((p.1 - a.1) * (b.1 - a.1) + (p.2 - a.2) * (b.2 - a.2)) - t * L) := by
        rw [hL]; ring
      rw [expand, hdotu]; ring
    rw [key]
    rcases le_total u 0 with hu0 | hu0
    · have htv : t = 0 := by
        rw [ht, min_eq_right (le_trans hu0 zero_le_one), max_eq_left hu0]
      rw [htv]
      have hsu : s * u ≤ 0 := mul_nonpos_of_nonneg_of_nonpos hs0 hu0
      nlinarith
    · rcases le_total u 1 with hu1 | hu1
      · have htv : t = u := by rw [ht, min_eq_right hu1, max_eq_right hu0]
        rw [htv]
        simp
      · have htv : t = 1 := by rw [ht, min_eq_left hu1, max_eq_right zero_le_one]
        rw [htv]
        have hprod : (s - 1) * (u - 1) ≤ 0 :=
          mul_nonpos_of_nonpos_of_nonneg (by linarith) (by linarith)
        nlinarith

theorem resolve_edgeA_eval_aux :
    (resolve_edgeA HEX_CENTER ANGULAR_VELOCITY (400, 291) (3, 4) (300, 300) (500, 300)) =
      ((400, 284.5), (2.7, -4)) := by
  have hc : closest_point_on_segment ((400:ℝ), (291:ℝ)) (300, 300) (500, 300) = (400, 300) := by
    rw [closest_point_pos _ _ _ (by norm_num)]
    norm_num [min_def, max_def]
  have hsub : vector_sub ((400:ℝ), (291:ℝ)) ((400:ℝ), (300:ℝ)) = (0, -9) := by
    norm_num [vector_sub]
  have hlen : vector_length ((0:ℝ), (-9:ℝ)) = 9 :=
    vector_length_eval 0 (-9) 9 (by norm_num) (by norm_num)
  have hn : collision_normal ((0:ℝ), (-9:ℝ)) = (0, -1) := by
    rw [collision_normal, if_neg (by rw [hlen]; norm_num)]
    rw [vector_normalize_pos _ (by rw [hlen]; norm_num), hlen]
    norm_num
  simp only [resolve_edgeA, hc, hsub, hlen, hn]
  rw [if_pos (by norm_num [BALL_RADIUS])]
  norm_num [wall_velocity_at, vector_sub, vector_mul, perpendicular, vector_add,
    HEX_CENTER, ANGULAR_VELOCITY, respondA, WALL_FRICTION, BALL_RADIUS]

theorem closest_point_min_sq (p a b : Vec) (s : ℝ) (hs0 : 0 ≤ s) (hs1 : s ≤ 1) :
    len_sq (vector_sub p (closest_point_on_segment p a b)) ≤
      len_sq (vector_sub p (a.1 + s * (b.1 - a.1), a.2 + s * (b.2 - a.2))) := by
  set c := closest_point_on_segment p a b
  set q : Vec := (a.1 + s * (b.1 - a.1), a.2 + s * (b.2 - a.2))
  have hd : dot (vector_sub p c) (vector_sub q c) ≤ 0 := closest_point_obtuse p a b s hs0 hs1
  have hexp : len_sq (vector_sub p q) =
      len_sq (vector_sub p c) - 2 * dot (vector_sub p c) (vector_sub q c)
        + len_sq (vector_sub q c) := by
    simp only [len_sq, vector_sub, dot]; ring
  have hq : 0 ≤ len_sq (vector_sub q c) := len_sq_nonneg _
  linarith

theorem closest_point_min_len (p a b : Vec) (s : ℝ) (hs0 : 0 ≤ s) (hs1 : s ≤ 1) :
    vector_length (vector_sub p (closest_point_on_segment p a b)) ≤
      vector_length (vector_sub p (a.1 + s * (b.1 - a.1), a.2 + s * (b.2 - a.2))) := by
  have h := closest_point_min_sq p a b s hs0 hs1
  simp only [vector_length]
  exact Real.sqrt_le_sqrt (by simpa [len_sq] using h)

theorem dot_mul_left (u v : Vec) (s : ℝ) : dot (vector_mul u s) v = s * dot u v := by
  simp only [dot, vector_mul]; ring

theorem reflect_dot_normal (u n : Vec) (h : dot n n = 1) :
    dot (reflect_velocity u n) n = -(dot u n) := by
  obtain ⟨u1, u2⟩ := u
  obtain ⟨n1, n2⟩ := n
  simp only [dot] at h
  simp only [reflect_velocity, dot]
  linear_combination (-(2 * (u1 * n1 + u2 * n2))) * h

theorem wall_velocity_at_zero (c closest : Vec) : wall_velocity_at c 0 closest = (0, 0) := by
  simp [wall_velocity_at, vector_mul]

theorem collide_allA_id (center : Vec) (ω : ℝ) (st : Vec × Vec)
    (edges : List (Vec × Vec))
    (h : ∀ e ∈ edges, BALL_RADIUS ≤
      vector_length (vector_sub st.1 (closest_point_on_segment st.1 e.1 e.2))) :
    collide_allA center ω st edges = st := by
  induction edges with
  | nil => rfl
  | cons e es ih =>
      have he := h e (List.mem_cons_self e es)
      have hres : resolve_edgeA center ω st.1 st.2 e.1 e.2 = st := by
        simp only [resolve_edgeA]
        rw [if_neg (not_lt.2 he)]
      have hrest : ∀ e' ∈ es, BALL_RADIUS ≤
          vector_length (vector_sub st.1 (closest_point_on_segment st.1 e'.1 e'.2)) :=
        fun e' he' => h e' (List.mem_cons_of_mem e he')
      calc collide_allA center ω st (e :: es)
          = collide_allA center ω (resolve_edgeA center ω st.1 st.2 e.1 e.2) es := rfl
        _ = collide_allA center ω st es := by rw [hres]
        _ = st := ih hrest

theorem stepA_no_collision (center : Vec) (radius angle ang_vel : ℝ) (pos vel : Vec)
    (h : ∀ e ∈ hexagon_edges center radius (angle + ang_vel), BALL_RADIUS ≤
      vector_length (vector_sub (physics_update pos vel).1
        (closest_point_on_segment (physics_update pos vel).1 e.1 e.2))) :
    stepA center radius angle ang_vel pos vel =
      ((pos.1 + vel.1 * AIR_FRICTION, pos.2 + (vel.2 + GRAVITY) * AIR_FRICTION),
       (vel.1 * AIR_FRICTION, (vel.2 + GRAVITY) * AIR_FRICTION)) := by
  have hfold := collide_allA_id center ang_vel (physics_update pos vel)
    (hexagon_edges center radius (angle + ang_vel)) h
  calc stepA center radius angle ang_vel pos vel
      = collide_allA center ang_vel (physics_update pos vel)
          (hexagon_edges center radius (angle + ang_vel)) := rfl
    _ = physics_update pos vel := hfold
    _ = ((pos.1 + vel.1 * AIR_FRICTION, pos.2 + (vel.2 + GRAVITY) * AIR_FRICTION),
         (vel.1 * AIR_FRICTION, (vel.2 + GRAVITY) * AIR_FRICTION)) := rfl

theorem cauchy_schwarz_perp (u w : Vec) :
    (dot u (perpendicular w)) ^ 2 ≤ len_sq u * len_sq w := by
  simp only [dot, perpendicular, len_sq]
  nlinarith [sq_nonneg (u.1 * w.1 + u.2 * w.2)]

theorem closest_point_line_lower (p a b : Vec) :
    (dot (vector_sub p a) (perpendicular (vector_sub b a))) ^ 2 ≤
      len_sq (vector_sub p (closest_point_on_segment p a b)) * len_sq (vector_sub b a) := by
  obtain ⟨t, _, _, hc⟩ := closest_point_on p a b
  have hsubst : dot (vector_sub p (closest_point_on_segment p a b))
      (perpendicular (vector_sub b a)) =
      dot (vector_sub p a) (perpendicular (vector_sub b a)) := by
    rw [hc]
    simp only [dot, perpendicular, vector_sub]
    ring
  calc (dot (vector_sub p a) (perpendicular (vector_sub b a))) ^ 2
      = (dot (vector_sub p (closest_point_on_segment p a b))
          (perpendicular (vector_sub b a))) ^ 2 := by rw [hsubst]
    _ ≤ len_sq (vector_sub p (closest_point_on_segment p a b)) *
          len_sq (vector_sub b a) := cauchy_schwarz_perp _ _

theorem dist_gt_radius_of_line (p a b : Vec)
    (hab : len_sq (vector_sub b a) = 62500)
    (hD : 3750 < dot (vector_sub p a) (perpendicular (vector_sub b a))) :
    15 < vector_length (vector_sub p (closest_point_on_segment p a b)) := by
  have hlow := closest_point_line_lower p a b
  rw [hab] at hlow
  have hsq : (3750:ℝ) ^ 2 < (dot (vector_sub p a) (perpendicular (vector_sub b a))) ^ 2 := by
    nlinarith
  have h225 : (225:ℝ) < len_sq (vector_sub p (closest_point_on_segment p a b)) := by
    nlinarith
  rw [vector_length]
  rw [show (15:ℝ) = Real.sqrt 225 by
    rw [show (225:ℝ) = 15 ^ 2 by norm_num, Real.sqrt_sq (by norm_num : (0:ℝ) ≤ 15)]]
  exact Real.sqrt_lt_sqrt (by norm_num) (by
    simpa [len_sq] using h225)

end BallSim

section SharedEval

open BallSim

theorem vector_sub_zero_right (x : BallSim.Vec) : vector_sub x (0, 0) = x := by
  simp [vector_sub]

theorem closest_seg1_eval :
    closest_point_on_segment ((400:ℝ), (291:ℝ)) (300, 300) (500, 300) = (400, 300) := by
  rw [closest_point_pos _ _ _ (by norm_num)]
  norm_num [min_def, max_def]

theorem sub_seg1_eval :
    vector_sub ((400:ℝ), (291:ℝ))
      (closest_point_on_segment ((400:ℝ), (291:ℝ)) (300, 300) (500, 300)) = (0, -9) := by
  rw [closest_seg1_eval]
  norm_num [vector_sub]

theorem dist_seg1_eval :
    vector_length (vector_sub ((400:ℝ), (291:ℝ))
      (closest_point_on_segment ((400:ℝ), (291:ℝ)) (300, 300) (500, 300))) = 9 := by
  rw [sub_seg1_eval]
  exact vector_length_eval 0 (-9) 9 (by norm_num) (by norm_num)

theorem normal_seg1_eval :
    collision_normal (vector_sub ((400:ℝ), (291:ℝ))
      (closest_point_on_segment ((400:ℝ), (291:ℝ)) (300, 300) (500, 300))) = (0, -1) := by
  rw [sub_seg1_eval]
  have hlen : vector_length ((0:ℝ), (-9:ℝ)) = 9 :=
    vector_length_eval 0 (-9) 9 (by norm_num) (by norm_num)
  rw [collision_normal, if_neg (by rw [hlen]; norm_num)]
  rw [vector_normalize_pos _ (by rw [hlen]; norm_num), hlen]
  norm_num

theorem wall_seg1_eval :
    wall_velocity_at HEX_CENTER ANGULAR_VELOCITY
      (closest_point_on_segment ((400:ℝ), (291:ℝ)) (300, 300) (500, 300)) = (0, 0) := by
  rw [closest_seg1_eval]
  norm_num [wall_velocity_at, HEX_CENTER, ANGULAR_VELOCITY, vector_sub, perpendicular,
    vector_mul]

theorem respondB_seg1_eval :
    respondB RESTITUTION WALL_FRICTION (3, 4) (0, 0) (0, -1) = (2.7, -3.2) := by
  norm_num [respondB, RESTITUTION, WALL_FRICTION, vector_sub, vector_mul, vector_add,
    perpendicular]

end SharedEval

section ClaimC1

open BallSim

/-- C1 counterexample: at the detected collision of src/ball.py with
ball center (400, 291), velocity (3, 4) and the horizontal edge from
(300, 300) to (500, 300) (closest point (400, 300), distance 9 < 15,
normal (0, -1), wall contact velocity (0, 0)), the code's resulting
velocity is (2.7, -4): its normal component is the full reflected value
-4.  The claim mandates the restitution-scaled response, which at this
input is `respondB RESTITUTION WALL_FRICTION (3,4) (0,0) (0,-1) =
(2.7, -3.2)`.  The two differ, so the claim is false of src/ball.py,
which never multiplies the reflected relative velocity by
RESTITUTION. -/
theorem C1_counterexample :
    (resolve_edgeA HEX_CENTER ANGULAR_VELOCITY (400, 291) (3, 4) (300, 300) (500, 300)).2
        = (2.7, -4) ∧
    respondB RESTITUTION WALL_FRICTION (3, 4) (0, 0) (0, -1) = (2.7, -3.2) ∧
    ((2.7 : ℝ), (-4 : ℝ)) ≠ ((2.7 : ℝ), (-3.2 : ℝ)) := by
  refine ⟨?_, respondB_seg1_eval, ?_⟩
  · rw [resolve_edgeA_eval_aux]
  · intro hEq
    have := congrArg Prod.snd hEq
    norm_num at this

/-- C1 (amended): in the src/ball_game/ball.py variant, for every
detected collision (dist < BALL_RADIUS) the resulting ball velocity is
exactly the wall contact velocity `w` plus the adjusted relative
velocity whose component along the collision normal `n` is the
reflected normal component scaled by RESTITUTION, and whose tangential
component is WALL_FRICTION times the incoming relative tangential
component; i.e. `ball.velocity = (adjusted v_rel) + w` with the whole
reflected relative velocity scaled by restitution.  (src/ball.py omits
the restitution factor; see the counterexample.) -/
theorem C1_collision_response_pipeline (c : BallSim.Vec) (ω : ℝ)
    (pos vel a b : BallSim.Vec)
    (hcol : vector_length (vector_sub pos (closest_point_on_segment pos a b)) <
      BALL_RADIUS) :
    (resolve_edgeB c ω pos vel a b).2 =
      vector_add (wall_velocity_at c ω (closest_point_on_segment pos a b))
        (vector_add
          (vector_mul (collision_normal (vector_sub pos (closest_point_on_segment pos a b)))
            (-(RESTITUTION * dot
                (vector_sub vel (wall_velocity_at c ω (closest_point_on_segment pos a b)))
                (collision_normal (vector_sub pos (closest_point_on_segment pos a b))))))
          (vector_mul
            (perpendicular (collision_normal (vector_sub pos (closest_point_on_segment pos a b))))
            (WALL_FRICTION * dot
              (vector_sub vel (wall_velocity_at c ω (closest_point_on_segment pos a b)))
              (perpendicular (collision_normal (vector_sub pos (closest_point_on_segment pos a b))))))) := by
  simp only [resolve_edgeB]
  rw [if_pos hcol]
  exact respondB_decomp RESTITUTION WALL_FRICTION vel
    (wall_velocity_at c ω (closest_point_on_segment pos a b))
    (collision_normal (vector_sub pos (closest_point_on_segment pos a b)))
    (collision_normal_unit _)

/-- C1 witness: the pipeline theorem applied at the concrete collision
(400, 291), velocity (3, 4), edge (300, 300)-(500, 300), whose
distance evaluates to 9 < 15; the resulting velocity evaluates to
(2.7, -3.2). -/
theorem C1_witness :
    vector_length (vector_sub ((400:ℝ), (291:ℝ))
        (closest_point_on_segment ((400:ℝ), (291:ℝ)) (300, 300) (500, 300))) <
      BALL_RADIUS ∧
    (resolve_edgeB HEX_CENTER ANGULAR_VELOCITY (400, 291) (3, 4) (300, 300) (500, 300)).2
      = (2.7, -3.2) := by
  have hcol : vector_length (vector_sub ((400:ℝ), (291:ℝ))
      (closest_point_on_segment ((400:ℝ), (291:ℝ)) (300, 300) (500, 300))) < BALL_RADIUS := by
    rw [dist_seg1_eval]; norm_num [BALL_RADIUS]
  refine ⟨hcol, ?_⟩
  have h := C1_collision_response_pipeline HEX_CENTER ANGULAR_VELOCITY
    (400, 291) (3, 4) (300, 300) (500, 300) hcol
  rw [normal_seg1_eval, wall_seg1_eval] at h
  rw [h]
  norm_num [vector_add, vector_mul, vector_sub, dot, perpendicular, RESTITUTION,
    WALL_FRICTION]

end ClaimC1

section MainCEval

open BallSim

theorem pld_seg2_eval :
    MainC.point_line_distance (340, 371) (300, 380) (500, 380) = (9, (340, 380)) := by
  have hline : vector_sub ((500:ℝ), (380:ℝ)) ((300:ℝ), (380:ℝ)) = (200, 0) := by
    norm_num [vector_sub]
  have hlen : vector_length ((200:ℝ), (0:ℝ)) = 200 :=
    vector_length_eval 200 0 200 (by norm_num) (by norm_num)
  simp only [MainC.point_line_distance, hline]
  rw [if_neg (by rw [hlen]; norm_num)]
  have ht : max 0 (min 1 (dot (vector_sub ((340:ℝ), (371:ℝ)) (300, 380)) (200, 0) /
      len_sq ((200:ℝ), (0:ℝ)))) = 0.2 := by
    norm_num [dot, vector_sub, len_sq, min_def, max_def]
  rw [ht]
  have hproj : vector_add ((300:ℝ), (380:ℝ)) (vector_mul (200, 0) 0.2) = (340, 380) := by
    norm_num [vector_add, vector_mul]
  rw [hproj]
  have hd : vector_sub ((340:ℝ), (371:ℝ)) ((340:ℝ), (380:ℝ)) = (0, -9) := by
    norm_num [vector_sub]
  rw [hd, vector_length_eval 0 (-9) 9 (by norm_num) (by norm_num)]

theorem edge_normal_seg2_eval :
    MainC.edge_normal (300, 380) (500, 380) = (0, 1) := by
  have hperp : perpendicular (vector_sub ((500:ℝ), (380:ℝ)) ((300:ℝ), (380:ℝ))) = (0, 200) := by
    norm_num [perpendicular, vector_sub]
  rw [MainC.edge_normal, hperp]
  have hlen : vector_length ((0:ℝ), (200:ℝ)) = 200 :=
    vector_length_eval 0 200 200 (by norm_num) (by norm_num)
  rw [vector_normalize_pos _ (by rw [hlen]; norm_num), hlen]
  norm_num

theorem wall_tangent_seg2_eval :
    vector_normalize (perpendicular (vector_sub ((340:ℝ), (380:ℝ)) ((400:ℝ), (300:ℝ)))) =
      (-0.8, -0.6) := by
  have hperp : perpendicular (vector_sub ((340:ℝ), (380:ℝ)) ((400:ℝ), (300:ℝ))) =
      (-80, -60) := by
    norm_num [perpendicular, vector_sub]
  rw [hperp]
  have hlen : vector_length ((-80:ℝ), (-60:ℝ)) = 100 :=
    vector_length_eval (-80) (-60) 100 (by norm_num) (by norm_num)
  rw [vector_normalize_pos _ (by rw [hlen]; norm_num), hlen]
  norm_num

theorem r_vec_len_seg2_eval :
    vector_length (vector_sub ((340:ℝ), (380:ℝ)) ((400:ℝ), (300:ℝ))) = 100 := by
  have hs : vector_sub ((340:ℝ), (380:ℝ)) ((400:ℝ), (300:ℝ)) = (-60, 80) := by
    norm_num [vector_sub]
  rw [hs]
  exact vector_length_eval (-60) 80 100 (by norm_num) (by norm_num)

theorem handle_collision_seg2_eval (rs : ℝ) (vel : BallSim.Vec) :
    MainC.handle_collision_edge (400, 300) rs 0.8 (340, 371) vel (300, 380) (500, 380) =
      (vector_add (340, 371) (vector_mul (0, 1) (MainC.ball_radius - 9)),
       vector_sub
         (vector_mul (vector_add
           (vector_sub (vector_sub vel (vector_mul (-0.8, -0.6) (rs * 100)))
             (vector_mul (0, 1)
               (2 * dot (vector_sub vel (vector_mul (-0.8, -0.6) (rs * 100))) (0, 1))))
           (vector_mul (-0.8, -0.6) (rs * 100))) 0.8)
         (vector_mul (-0.8, -0.6) ((1 - MainC.FRICTION) *
           dot (vector_mul (vector_add
             (vector_sub (vector_sub vel (vector_mul (-0.8, -0.6) (rs * 100)))
               (vector_mul (0, 1)
                 (2 * dot (vector_sub vel (vector_mul (-0.8, -0.6) (rs * 100))) (0, 1))))
             (vector_mul (-0.8, -0.6) (rs * 100))) 0.8) (-0.8, -0.6)))) := by
  simp only [MainC.handle_collision_edge, pld_seg2_eval]
  rw [if_pos (by norm_num [MainC.ball_radius])]
  rw [edge_normal_seg2_eval, wall_tangent_seg2_eval, r_vec_len_seg2_eval]

end MainCEval

section ClaimC5

open BallSim

/-- C5 counterexample: in src/ball_game/main.py, at the collision of a
ball at (340, 371) with velocity (0, 3) against the edge from
(300, 380) to (500, 380) of a hexagon centered at (400, 300) with
rotation speed 0.01 and elasticity 0.8 (closest point (340, 380),
distance 9 < 15, edge normal (0, 1), wall tangent (-0.8, -0.6), wall
velocity (-0.8, -0.6)), the final velocity is (0.032256, -3.335808),
whose component along the collision normal is -3.335808; before the
friction step the velocity was elasticity times (reflection + wall
velocity), with normal component -3.36.  The friction step therefore
altered the normal component, contradicting the claim. -/
theorem C5_counterexample :
    (MainC.handle_collision_edge (400, 300) 0.01 0.8 (340, 371) (0, 3)
        (300, 380) (500, 380)).2 = (0.032256, -3.335808) ∧
    dot (vector_mul (vector_add
        (reflect_velocity (vector_sub (0, 3) (-0.8, -0.6)) (0, 1)) (-0.8, -0.6)) 0.8)
      (0, 1) = -3.36 ∧
    (-3.335808 : ℝ) ≠ (-3.36 : ℝ) := by
  refine ⟨?_, by norm_num [dot, vector_mul, vector_add, vector_sub, reflect_velocity], by norm_num⟩
  rw [handle_collision_seg2_eval 0.01 (0, 3)]
  norm_num [vector_add, vector_sub, vector_mul, dot, MainC.FRICTION]

/-- C5 (amended): in the responses of src/ball.py and
src/ball_game/ball.py, the wall-friction step acts only on the
tangential component of the (restitution-scaled) reflected relative
velocity: the normal component of the outgoing relative velocity equals
the normal component of the restitution-scaled reflected relative
velocity (unaltered by friction), and the tangential component equals
`wall_friction` times the incoming relative tangential component.
(src/ball_game/main.py instead applies friction to the full
post-elasticity velocity along the perpendicular of the contact radius
vector, which also alters the normal component; see the
counterexample.) -/
theorem C5_friction_tangential_only (e f : ℝ) (v w n : BallSim.Vec)
    (h : dot n n = 1) :
    dot (vector_sub (respondB e f v w n) w) n =
      dot (vector_mul (reflect_velocity (vector_sub v w) n) e) n ∧
    dot (vector_sub (respondB e f v w n) w) (perpendicular n) =
      f * dot (vector_sub v w) (perpendicular n) := by
  constructor
  · rw [respond_dot_normal e f v w n h, dot_mul_left, reflect_dot_normal _ _ h]
    ring
  · exact respond_dot_tangent e f v w n h

/-- C5 witness: the friction theorem at restitution 0.8, friction 0.9,
velocity (3, 4), wall velocity (1, 0) and unit normal (0, -1). -/
theorem C5_witness :
    dot ((0:ℝ), (-1:ℝ)) ((0:ℝ), (-1:ℝ)) = 1 ∧
    (dot (vector_sub (respondB 0.8 0.9 (3, 4) (1, 0) (0, -1)) (1, 0)) (0, -1) =
      dot (vector_mul (reflect_velocity (vector_sub (3, 4) (1, 0)) (0, -1)) 0.8) (0, -1) ∧
    dot (vector_sub (respondB 0.8 0.9 (3, 4) (1, 0) (0, -1)) (1, 0))
        (perpendicular (0, -1)) =
      0.9 * dot (vector_sub (3, 4) (1, 0)) (perpendicular (0, -1))) := by
  have h : dot ((0:ℝ), (-1:ℝ)) ((0:ℝ), (-1:ℝ)) = 1 := by norm_num [dot]
  exact ⟨h, C5_friction_tangential_only 0.8 0.9 (3, 4) (1, 0) (0, -1) h⟩

end ClaimC5

section ClaimC6

open BallSim

/-- C6 counterexample: in src/ball_game/main.py with a static boundary
(rotation speed 0), elasticity 0.8 ≤ 1 and FRICTION = 0.98 ≤ 1, the
collision of a ball at (340, 371) with velocity (10, 0.1) against the
edge (300, 380)-(500, 380) of a hexagon centered at (400, 300) yields
final velocity (7.898368, -0.156224): its speed along the collision
normal (0, 1) is 0.156224, which exceeds the pre-collision normal speed
0.1.  The friction step along the contact-radius perpendicular
increases the normal-direction speed, contradicting the claim. -/
theorem C6_counterexample :
    (MainC.handle_collision_edge (400, 300) 0 0.8 (340, 371) (10, 0.1)
        (300, 380) (500, 380)).2 = (7.898368, -0.156224) ∧
    ¬ |dot ((7.898368:ℝ), (-0.156224:ℝ)) ((0:ℝ), (1:ℝ))| ≤
        |dot ((10:ℝ), (0.1:ℝ)) ((0:ℝ), (1:ℝ))| := by
  constructor
  · rw [handle_collision_seg2_eval 0 (10, 0.1)]
    norm_num [vector_add, vector_sub, vector_mul, dot, MainC.FRICTION]
  · rw [not_le]
    have h1 : dot ((7.898368:ℝ), (-0.156224:ℝ)) ((0:ℝ), (1:ℝ)) = -0.156224 := by
      norm_num [dot]
    have h2 : dot ((10:ℝ), (0.1:ℝ)) ((0:ℝ), (1:ℝ)) = 0.1 := by norm_num [dot]
    rw [h1, h2]
    rw [abs_of_nonneg (by norm_num : (0:ℝ) ≤ 0.1),
      abs_of_nonpos (by norm_num : (-0.156224:ℝ) ≤ 0)]
    norm_num

/-- C6 (amended): in src/ball_game/ball.py (RESTITUTION = 0.8 ≤ 1,
WALL_FRICTION = 0.9 ≤ 1), for every detected collision against a static
boundary (angular velocity 0, so the wall contact velocity is zero),
the magnitude of the outgoing velocity component along the collision
normal does not exceed the incoming one.  (The same holds for
src/ball.py, where the normal component is preserved exactly;
src/ball_game/main.py violates the bound, see the counterexample.) -/
theorem C6_normal_speed_nonincreasing (c : BallSim.Vec) (pos vel a b : BallSim.Vec)
    (hcol : vector_length (vector_sub pos (closest_point_on_segment pos a b)) <
      BALL_RADIUS) :
    |dot (resolve_edgeB c 0 pos vel a b).2
        (collision_normal (vector_sub pos (closest_point_on_segment pos a b)))| ≤
      |dot vel (collision_normal (vector_sub pos (closest_point_on_segment pos a b)))| := by
  have hvel : (resolve_edgeB c 0 pos vel a b).2 =
      respondB RESTITUTION WALL_FRICTION vel
        (wall_velocity_at c 0 (closest_point_on_segment pos a b))
        (collision_normal (vector_sub pos (closest_point_on_segment pos a b))) := by
    simp only [resolve_edgeB]
    rw [if_pos hcol]
  rw [hvel, wall_velocity_at_zero]
  have hd := respond_dot_normal RESTITUTION WALL_FRICTION vel (0, 0)
    (collision_normal (vector_sub pos (closest_point_on_segment pos a b)))
    (collision_normal_unit _)
  rw [vector_sub_zero_right, vector_sub_zero_right] at hd
  rw [hd, abs_neg, abs_mul]
  have hR : |RESTITUTION| = 0.8 := by norm_num [RESTITUTION]
  rw [hR]
  nlinarith [abs_nonneg (dot vel
    (collision_normal (vector_sub pos (closest_point_on_segment pos a b))))]

/-- C6 witness: the bound applied at the concrete collision of a ball
at (400, 291), velocity (3, 4), edge (300, 300)-(500, 300), distance
9 < 15, with angular velocity 0. -/
theorem C6_witness :
    vector_length (vector_sub ((400:ℝ), (291:ℝ))
        (closest_point_on_segment ((400:ℝ), (291:ℝ)) (300, 300) (500, 300))) <
      BALL_RADIUS ∧
    |dot (resolve_edgeB HEX_CENTER 0 (400, 291) (3, 4) (300, 300) (500, 300)).2
        (collision_normal (vector_sub ((400:ℝ), (291:ℝ))
          (closest_point_on_segment ((400:ℝ), (291:ℝ)) (300, 300) (500, 300))))| ≤
      |dot ((3:ℝ), (4:ℝ)) (collision_normal (vector_sub ((400:ℝ), (291:ℝ))
          (closest_point_on_segment ((400:ℝ), (291:ℝ)) (300, 300) (500, 300))))| := by
  have hcol : vector_length (vector_sub ((400:ℝ), (291:ℝ))
      (closest_point_on_segment ((400:ℝ), (291:ℝ)) (300, 300) (500, 300))) < BALL_RADIUS := by
    rw [dist_seg1_eval]; norm_num [BALL_RADIUS]
  exact ⟨hcol, C6_normal_speed_nonincreasing HEX_CENTER (400, 291) (3, 4)
    (300, 300) (500, 300) hcol⟩

end ClaimC6

section ClaimC10

open BallSim

/-- C10: in the src/ball.py variant, for every collision with positive
distance, the outgoing relative velocity component along the collision
normal is exactly the negation of the incoming one: the normal bounce
is perfectly elastic, with no restitution factor. -/
theorem C10_elastic_normal_bounce (c : BallSim.Vec) (ω : ℝ)
    (pos vel a b : BallSim.Vec)
    (_hpos : 0 < vector_length (vector_sub pos (closest_point_on_segment pos a b)))
    (hcol : vector_length (vector_sub pos (closest_point_on_segment pos a b)) <
      BALL_RADIUS) :
    dot (vector_sub (resolve_edgeA c ω pos vel a b).2
          (wall_velocity_at c ω (closest_point_on_segment pos a b)))
        (collision_normal (vector_sub pos (closest_point_on_segment pos a b))) =
      -(dot (vector_sub vel (wall_velocity_at c ω (closest_point_on_segment pos a b)))
          (collision_normal (vector_sub pos (closest_point_on_segment pos a b)))) := by
  have hvel : (resolve_edgeA c ω pos vel a b).2 =
      respondA WALL_FRICTION vel
        (wall_velocity_at c ω (closest_point_on_segment pos a b))
        (collision_normal (vector_sub pos (closest_point_on_segment pos a b))) := by
    simp only [resolve_edgeA]
    rw [if_pos hcol]
  rw [hvel, respondA_eq]
  have hd := respond_dot_normal 1 WALL_FRICTION vel
    (wall_velocity_at c ω (closest_point_on_segment pos a b))
    (collision_normal (vector_sub pos (closest_point_on_segment pos a b)))
    (collision_normal_unit _)
  rw [hd]
  ring

/-- C10 witness: the elastic-bounce identity applied at the concrete
collision of a ball at (400, 291), velocity (3, 4), edge
(300, 300)-(500, 300): the distance evaluates to 9, so both hypotheses
hold. -/
theorem C10_witness :
    (0 < vector_length (vector_sub ((400:ℝ), (291:ℝ))
        (closest_point_on_segment ((400:ℝ), (291:ℝ)) (300, 300) (500, 300))) ∧
      vector_length (vector_sub ((400:ℝ), (291:ℝ))
        (closest_point_on_segment ((400:ℝ), (291:ℝ)) (300, 300) (500, 300))) <
        BALL_RADIUS) ∧
    dot (vector_sub
          (resolve_edgeA HEX_CENTER ANGULAR_VELOCITY (400, 291) (3, 4)
            (300, 300) (500, 300)).2
          (wall_velocity_at HEX_CENTER ANGULAR_VELOCITY
            (closest_point_on_segment ((400:ℝ), (291:ℝ)) (300, 300) (500, 300))))
        (collision_normal (vector_sub ((400:ℝ), (291:ℝ))
          (closest_point_on_segment ((400:ℝ), (291:ℝ)) (300, 300) (500, 300)))) =
      -(dot (vector_sub ((3:ℝ), (4:ℝ))
          (wall_velocity_at HEX_CENTER ANGULAR_VELOCITY
            (closest_point_on_segment ((400:ℝ), (291:ℝ)) (300, 300) (500, 300))))
          (collision_normal (vector_sub ((400:ℝ), (291:ℝ))
            (closest_point_on_segment ((400:ℝ), (291:ℝ)) (300, 300) (500, 300))))) := by
  have hpos : 0 < vector_length (vector_sub ((400:ℝ), (291:ℝ))
      (closest_point_on_segment ((400:ℝ), (291:ℝ)) (300, 300) (500, 300))) := by
    rw [dist_seg1_eval]; norm_num
  have hcol : vector_length (vector_sub ((400:ℝ), (291:ℝ))
      (closest_point_on_segment ((400:ℝ), (291:ℝ)) (300, 300) (500, 300))) < BALL_RADIUS := by
    rw [dist_seg1_eval]; norm_num [BALL_RADIUS]
  exact ⟨⟨hpos, hcol⟩, C10_elastic_normal_bounce HEX_CENTER ANGULAR_VELOCITY
    (400, 291) (3, 4) (300, 300) (500, 300) hpos hcol⟩

end ClaimC10

section ClaimC2

open BallSim

theorem le_vector_length_of_sq (r : ℝ) (v : BallSim.Vec) (hr : 0 < r)
    (h : r ^ 2 ≤ len_sq v) : r ≤ vector_length v := by
  rw [vector_length]
  exact (Real.le_sqrt' hr).2 (by simpa [len_sq] using h)

/-- C2 counterexample: `Ball.update` of src/ball_game/main.py at
velocity (5, 0) with gravity (0, 0.5) enabled and DRAG_COEFF = 0.99
produces velocity (4.95, 0.5): the drag multiplies the velocity
*before* the accumulated gravity is added.  The claim's order (gravity
added first, then the whole velocity multiplied once by the drag
coefficient) would give (5 * 0.99, (0 + 0.5) * 0.99) = (4.95, 0.495),
which differs in the y component. -/
theorem C2_counterexample :
    (MainC.ball_update true ⟨(0, 0), (5, 0), (0, 0)⟩).vel = (4.95, 0.5) ∧
    ((4.95 : ℝ), (0.5 : ℝ)) ≠
      ((5 : ℝ) * MainC.DRAG_COEFF, ((0 : ℝ) + 0.5) * MainC.DRAG_COEFF) := by
  constructor
  · norm_num [MainC.ball_update, MainC.GRAVITY, MainC.DRAG_COEFF, vector_add, vector_mul]
  · intro hEq
    have := congrArg Prod.snd hEq
    norm_num [MainC.DRAG_COEFF] at this

/-- C2 (amended): in src/ball.py (same physics in src/ball_game/ball.py),
for every tick in which no hexagon edge lies within BALL_RADIUS of the
(post-move) ball center, the step changes the ball state exactly by the
free-motion integration: gravity is added to the velocity once, the
result is multiplied once by the drag coefficient AIR_FRICTION (not
scaled by dt), and the position is then incremented once by the updated
velocity; nothing else changes.  (In src/ball_game/main.py the drag
multiplies the velocity before gravity is added; see the
counterexample.) -/
theorem C2_free_motion_tick (center : BallSim.Vec) (radius angle ang_vel : ℝ)
    (pos vel : BallSim.Vec)
    (h : ∀ e ∈ hexagon_edges center radius (angle + ang_vel), BALL_RADIUS ≤
      vector_length (vector_sub (physics_update pos vel).1
        (closest_point_on_segment (physics_update pos vel).1 e.1 e.2))) :
    stepA center radius angle ang_vel pos vel =
      ((pos.1 + vel.1 * AIR_FRICTION, pos.2 + (vel.2 + GRAVITY) * AIR_FRICTION),
       (vel.1 * AIR_FRICTION, (vel.2 + GRAVITY) * AIR_FRICTION)) :=
  stepA_no_collision center radius angle ang_vel pos vel h

/-- C2 witness: a degenerate hexagon of circumradius 0 centered at
(400, 300) puts every edge at the center point, far from a ball at the
origin, so the tick reduces to the free-motion integration exactly. -/
theorem C2_witness :
    stepA (400, 300) 0 0 0.02 (0, 0) (0, 0) =
      (((0 : ℝ) + (0 : ℝ) * AIR_FRICTION, (0 : ℝ) + ((0 : ℝ) + GRAVITY) * AIR_FRICTION),
       ((0 : ℝ) * AIR_FRICTION, ((0 : ℝ) + GRAVITY) * AIR_FRICTION)) := by
  have hverts : compute_hexagon_vertices (400, 300) 0 (0 + 0.02) =
      [((400 : ℝ), (300 : ℝ)), (400, 300), (400, 300), (400, 300), (400, 300), (400, 300)] := by
    rw [compute_hexagon_vertices,
      show List.range 6 = [0, 1, 2, 3, 4, 5] from rfl]
    simp [List.map_cons]
  have hedges : hexagon_edges (400, 300) 0 (0 + 0.02) =
      [(((400 : ℝ), (300 : ℝ)), ((400 : ℝ), (300 : ℝ))), ((400, 300), (400, 300)),
       ((400, 300), (400, 300)), ((400, 300), (400, 300)), ((400, 300), (400, 300)),
       ((400, 300), (400, 300))] := by
    rw [hexagon_edges, hverts,
      show List.range 6 = [0, 1, 2, 3, 4, 5] from rfl]
    simp [List.getD]
  have hfar : ∀ e ∈ hexagon_edges (400, 300) 0 (0 + 0.02), BALL_RADIUS ≤
      vector_length (vector_sub (physics_update ((0 : ℝ), (0 : ℝ)) ((0 : ℝ), (0 : ℝ))).1
        (closest_point_on_segment
          (physics_update ((0 : ℝ), (0 : ℝ)) ((0 : ℝ), (0 : ℝ))).1 e.1 e.2)) := by
    intro e he
    rw [hedges] at he
    have hsame : e = (((400 : ℝ), (300 : ℝ)), ((400 : ℝ), (300 : ℝ))) := by
      simp only [List.mem_cons, List.not_mem_nil, or_false] at he
      rcases he with h | h | h | h | h | h <;> exact h
    subst hsame
    have hcz : closest_point_on_segment
        (physics_update ((0 : ℝ), (0 : ℝ)) ((0 : ℝ), (0 : ℝ))).1
        ((400 : ℝ), (300 : ℝ)) ((400 : ℝ), (300 : ℝ)) = (400, 300) :=
      closest_point_zero _ _ _ (by norm_num)
    rw [hcz]
    have hp : (physics_update ((0 : ℝ), (0 : ℝ)) ((0 : ℝ), (0 : ℝ))).1 = (0, 0.4975) := by
      norm_num [physics_update, AIR_FRICTION, GRAVITY]
    rw [hp]
    have hsub : vector_sub ((0 : ℝ), (0.4975 : ℝ)) ((400 : ℝ), (300 : ℝ)) =
        (-400, -299.5025) := by
      norm_num [vector_sub]
    rw [hsub]
    have : BALL_RADIUS = (15 : ℝ) := rfl
    rw [this]
    apply le_vector_length_of_sq 15 _ (by norm_num)
    norm_num [len_sq]
  exact C2_free_motion_tick (400, 300) 0 0 0.02 (0, 0) (0, 0) hfar

end ClaimC2

section ClaimC3

open BallSim

theorem len_sq_mul (v : BallSim.Vec) (s : ℝ) : len_sq (vector_mul v s) = s ^ 2 * len_sq v := by
  simp only [len_sq, vector_mul]; ring

/-- C3 counterexample: in src/ball.py, a ball whose center lies exactly
on the edge from (400, 300) to (400, 100) (dist = 0) is pushed along
the fallback normal (0, -1) by BALL_RADIUS + 0.5 to (400, 284.5) — a
point that still lies on that very edge (parameter s = 0.0775), so the
distance from the resolved ball center to the edge is 0, far below
BALL_RADIUS - 0.5.  The claimed separation bound fails when dist = 0. -/
theorem C3_counterexample :
    (resolve_edgeA HEX_CENTER ANGULAR_VELOCITY (400, 300) (0, 0) (400, 300) (400, 100)).1
        = (400, 284.5) ∧
    vector_length (vector_sub ((400 : ℝ), (284.5 : ℝ))
      ((400 : ℝ) + 0.0775 * ((400 : ℝ) - 400), (300 : ℝ) + 0.0775 * ((100 : ℝ) - 300))) = 0 ∧
    ¬ BALL_RADIUS - 0.5 ≤ (0 : ℝ) := by
  refine ⟨?_, ?_, by norm_num [BALL_RADIUS]⟩
  · have hc : closest_point_on_segment ((400 : ℝ), (300 : ℝ)) (400, 300) (400, 100) =
        (400, 300) := by
      rw [closest_point_pos _ _ _ (by norm_num)]
      norm_num [min_def, max_def]
    have hsub : vector_sub ((400 : ℝ), (300 : ℝ)) ((400 : ℝ), (300 : ℝ)) = (0, 0) := by
      norm_num [vector_sub]
    have hlen : vector_length ((0 : ℝ), (0 : ℝ)) = 0 :=
      vector_length_eval 0 0 0 (by norm_num) (by norm_num)
    have hn : collision_normal ((0 : ℝ), (0 : ℝ)) = (0, -1) := by
      rw [collision_normal, if_pos hlen]
    simp only [resolve_edgeA, hc, hsub, hlen, hn]
    rw [if_pos (by norm_num [BALL_RADIUS])]
    norm_num [vector_add, vector_mul, BALL_RADIUS]
  · have hpt : ((400 : ℝ) + 0.0775 * ((400 : ℝ) - 400), (300 : ℝ) + 0.0775 * ((100 : ℝ) - 300))
        = ((400 : ℝ), (284.5 : ℝ)) := by norm_num
    rw [hpt]
    have hsub : vector_sub ((400 : ℝ), (284.5 : ℝ)) ((400 : ℝ), (284.5 : ℝ)) = (0, 0) := by
      norm_num [vector_sub]
    rw [hsub]
    exact vector_length_eval 0 0 0 (by norm_num) (by norm_num)

/-- C3 (amended): in src/ball.py (same code in src/ball_game/ball.py),
for every single-edge collision with dist > 0 the penetration
correction pushes the ball position along the collision normal by
exactly (BALL_RADIUS - dist) + 0.5, and afterwards the distance from
the ball center to every point of the colliding edge is at least
BALL_RADIUS - 0.5 (indeed BALL_RADIUS + 0.5).  When dist = 0 the push
happens along the fallback normal but the separation bound can fail;
src/ball_game/main.py pushes by exactly the overlap with no epsilon. -/
theorem C3_penetration_correction (c : BallSim.Vec) (ω : ℝ)
    (pos vel a b : BallSim.Vec)
    (hpos : 0 < vector_length (vector_sub pos (closest_point_on_segment pos a b)))
    (hcol : vector_length (vector_sub pos (closest_point_on_segment pos a b)) <
      BALL_RADIUS) :
    (resolve_edgeA c ω pos vel a b).1 =
      vector_add pos (vector_mul
        (collision_normal (vector_sub pos (closest_point_on_segment pos a b)))
        (BALL_RADIUS - vector_length (vector_sub pos (closest_point_on_segment pos a b))
          + 0.5)) ∧
    ∀ s : ℝ, 0 ≤ s → s ≤ 1 →
      BALL_RADIUS - 0.5 ≤ vector_length (vector_sub (resolve_edgeA c ω pos vel a b).1
        (a.1 + s * (b.1 - a.1), a.2 + s * (b.2 - a.2))) := by
  have hbranch : (resolve_edgeA c ω pos vel a b).1 =
      vector_add pos (vector_mul
        (collision_normal (vector_sub pos (closest_point_on_segment pos a b)))
        (BALL_RADIUS - vector_length (vector_sub pos (closest_point_on_segment pos a b))
          + 0.5)) := by
    simp only [resolve_edgeA]
    rw [if_pos hcol]
  refine ⟨hbranch, ?_⟩
  intro s hs0 hs1
  rw [hbranch]
  set cp := closest_point_on_segment pos a b with hcp
  set dv := vector_sub pos cp with hdv
  set d := vector_length dv with hd
  have hdd : d * d = len_sq dv := vector_length_mul_self dv
  have hdne : d ≠ 0 := ne_of_gt hpos
  have hn : collision_normal dv = (dv.1 / d, dv.2 / d) := by
    have hne : vector_length dv ≠ 0 := hdne
    have hgt : 0 < vector_length dv := hpos
    rw [collision_normal, if_neg hne, vector_normalize_pos dv hgt]
  set μ : ℝ := BALL_RADIUS - d + 0.5 with hμ
  have hμpos : 0 < μ := by rw [hμ]; have h15 : BALL_RADIUS = (15:ℝ) := rfl; linarith
  set k : ℝ := 1 + μ / d with hk
  have hkpos : 0 < k := by
    rw [hk]
    have : 0 < μ / d := div_pos hμpos hpos
    linarith
  have hkd : k * d = d + μ := by rw [hk]; field_simp
  set q : BallSim.Vec := (a.1 + s * (b.1 - a.1), a.2 + s * (b.2 - a.2)) with hq
  have hps : vector_sub (vector_add pos (vector_mul (collision_normal dv) μ)) q =
      vector_sub (vector_mul dv k) (vector_sub q cp) := by
    rw [hn]
    have hpos1 : pos.1 = dv.1 + cp.1 := by rw [hdv]; simp [vector_sub]
    have hpos2 : pos.2 = dv.2 + cp.2 := by rw [hdv]; simp [vector_sub]
    simp only [vector_add, vector_mul, vector_sub, hk]
    rw [hpos1, hpos2]
    have e1 : dv.1 + cp.1 + dv.1 / d * μ - q.1 = dv.1 * (1 + μ / d) - (q.1 - cp.1) := by
      field_simp
      ring
    have e2 : dv.2 + cp.2 + dv.2 / d * μ - q.2 = dv.2 * (1 + μ / d) - (q.2 - cp.2) := by
      field_simp
      ring
    rw [e1, e2]
  rw [hps]
  have hobt : dot dv (vector_sub q cp) ≤ 0 := closest_point_obtuse pos a b s hs0 hs1
  have hexp : len_sq (vector_sub (vector_mul dv k) (vector_sub q cp)) =
      k ^ 2 * len_sq dv - 2 * (k * dot dv (vector_sub q cp)) +
        len_sq (vector_sub q cp) := by
    rw [len_sq_sub_expand, len_sq_mul, dot_mul_left]
  have hk2 : k ^ 2 * len_sq dv = (d + μ) ^ 2 := by
    rw [← hdd, ← hkd]; ring
  have hcross : 0 ≤ -(2 * (k * dot dv (vector_sub q cp))) := by
    have := mul_nonpos_of_nonneg_of_nonpos hkpos.le hobt
    linarith
  have hQ : 0 ≤ len_sq (vector_sub q cp) := len_sq_nonneg _
  have hlow : (d + μ) ^ 2 ≤ len_sq (vector_sub (vector_mul dv k) (vector_sub q cp)) := by
    rw [hexp, hk2]; linarith
  have h15 : BALL_RADIUS = (15 : ℝ) := rfl
  apply le_vector_length_of_sq _ _ (by rw [h15]; norm_num)
  have hsum : d + μ = BALL_RADIUS + 0.5 := by rw [hμ]; ring
  rw [hsum] at hlow
  nlinarith [hlow]

/-- C3 witness: the correction theorem applied at the collision of a
ball at (400, 291) with the edge (300, 300)-(500, 300) (distance 9,
0 < 9 < 15), with the separation bound instantiated at the edge
endpoint (s = 0). -/
theorem C3_witness :
    0 < vector_length (vector_sub ((400 : ℝ), (291 : ℝ))
      (closest_point_on_segment ((400 : ℝ), (291 : ℝ)) (300, 300) (500, 300))) ∧
    BALL_RADIUS - 0.5 ≤ vector_length (vector_sub
      (resolve_edgeA HEX_CENTER ANGULAR_VELOCITY (400, 291) (0, 0) (300, 300)
        (500, 300)).1
      ((300 : ℝ) + 0 * ((500 : ℝ) - 300), (300 : ℝ) + 0 * ((300 : ℝ) - 300))) := by
  have hpos : 0 < vector_length (vector_sub ((400 : ℝ), (291 : ℝ))
      (closest_point_on_segment ((400 : ℝ), (291 : ℝ)) (300, 300) (500, 300))) := by
    rw [dist_seg1_eval]; norm_num
  have hcol : vector_length (vector_sub ((400 : ℝ), (291 : ℝ))
      (closest_point_on_segment ((400 : ℝ), (291 : ℝ)) (300, 300) (500, 300))) <
      BALL_RADIUS := by
    rw [dist_seg1_eval]; norm_num [BALL_RADIUS]
  exact ⟨hpos, (C3_penetration_correction HEX_CENTER ANGULAR_VELOCITY (400, 291) (0, 0)
    (300, 300) (500, 300) hpos hcol).2 0 le_rfl zero_le_one⟩

end ClaimC3

section ClaimC4

open BallSim

/-- C4 counterexample: in src/ball_game/main.py, at the detected
collision of a ball at (-3, -4) with the edge from (0, 0) to (10, 0)
(closest point (0, 0), distance 5 < 15), the normal used is the
normalized edge perpendicular (0, 1), which is not the unit vector
(-0.6, -0.8) from the closest point toward the ball center. -/
theorem C4_counterexample :
    MainC.point_line_distance (-3, -4) (0, 0) (10, 0) = (5, (0, 0)) ∧
    (5 : ℝ) < MainC.ball_radius ∧
    MainC.edge_normal (0, 0) (10, 0) = (0, 1) ∧
    vector_mul (vector_sub ((-3 : ℝ), (-4 : ℝ)) ((0 : ℝ), (0 : ℝ))) (1 / 5) =
      (-0.6, -0.8) ∧
    ((0 : ℝ), (1 : ℝ)) ≠ ((-0.6 : ℝ), (-0.8 : ℝ)) := by
  refine ⟨?_, by norm_num [MainC.ball_radius], ?_, by norm_num [vector_mul, vector_sub], ?_⟩
  · have hline : vector_sub ((10 : ℝ), (0 : ℝ)) ((0 : ℝ), (0 : ℝ)) = (10, 0) := by
      norm_num [vector_sub]
    have hlen : vector_length ((10 : ℝ), (0 : ℝ)) = 10 :=
      vector_length_eval 10 0 10 (by norm_num) (by norm_num)
    simp only [MainC.point_line_distance, hline]
    rw [if_neg (by rw [hlen]; norm_num)]
    have ht : max 0 (min 1 (dot (vector_sub ((-3 : ℝ), (-4 : ℝ)) (0, 0)) (10, 0) /
        len_sq ((10 : ℝ), (0 : ℝ)))) = 0 := by
      norm_num [dot, vector_sub, len_sq, min_def, max_def]
    rw [ht]
    have hproj : vector_add ((0 : ℝ), (0 : ℝ)) (vector_mul (10, 0) 0) = (0, 0) := by
      norm_num [vector_add, vector_mul]
    rw [hproj]
    have hs : vector_sub ((-3 : ℝ), (-4 : ℝ)) ((0 : ℝ), (0 : ℝ)) = (-3, -4) := by
      norm_num [vector_sub]
    rw [hs, vector_length_eval (-3) (-4) 5 (by norm_num) (by norm_num)]
  · have hperp : perpendicular (vector_sub ((10 : ℝ), (0 : ℝ)) ((0 : ℝ), (0 : ℝ))) =
        (0, 10) := by
      norm_num [perpendicular, vector_sub]
    rw [MainC.edge_normal, hperp]
    have hlen : vector_length ((0 : ℝ), (10 : ℝ)) = 10 :=
      vector_length_eval 0 10 10 (by norm_num) (by norm_num)
    rw [vector_normalize_pos _ (by rw [hlen]; norm_num), hlen]
    norm_num
  · intro hEq
    have := congrArg Prod.fst hEq
    norm_num at this

/-- C4 (amended): in src/ball.py and src/ball_game/ball.py, for every
detected collision with dist > 0 the collision normal is the unit
vector from the closest edge point toward the ball center (the
distance vector scaled by 1/dist); when dist = 0 it is the fixed
fallback (0, -1) (straight up in screen coordinates); in both cases it
is a unit vector and the computation is total, so no crash occurs.
(src/ball_game/main.py instead uses the normalized edge perpendicular,
which at vertex-region contacts is not the direction toward the ball
center; see the counterexample.) -/
theorem C4_collision_normal_spec (dv : BallSim.Vec) :
    (0 < vector_length dv →
      collision_normal dv = vector_mul dv (1 / vector_length dv)) ∧
    (vector_length dv = 0 → collision_normal dv = (0, -1)) ∧
    vector_length (collision_normal dv) = 1 := by
  refine ⟨?_, ?_, ?_⟩
  · intro h
    rw [collision_normal, if_neg (by intro h0; rw [h0] at h; exact lt_irrefl 0 h),
      vector_normalize_pos dv h]
    simp only [vector_mul, div_eq_mul_inv, one_mul]
  · intro h
    rw [collision_normal, if_pos h]
  · have hu := collision_normal_unit dv
    have hls : len_sq (collision_normal dv) = 1 := by
      simpa [dot, len_sq] using hu
    rw [vector_length,
      show (collision_normal dv).1 * (collision_normal dv).1 +
        (collision_normal dv).2 * (collision_normal dv).2 =
        len_sq (collision_normal dv) from rfl, hls, Real.sqrt_one]

/-- C4 witness: the normal specification applied at the distance vector
(0, -9) of the concrete collision used throughout: the normal is
(0, -9) scaled by 1/9, a unit vector. -/
theorem C4_witness :
    0 < vector_length ((0 : ℝ), (-9 : ℝ)) ∧
    collision_normal ((0 : ℝ), (-9 : ℝ)) =
      vector_mul ((0 : ℝ), (-9 : ℝ)) (1 / vector_length ((0 : ℝ), (-9 : ℝ))) ∧
    vector_length (collision_normal ((0 : ℝ), (-9 : ℝ))) = 1 := by
  have hlen : vector_length ((0 : ℝ), (-9 : ℝ)) = 9 :=
    vector_length_eval 0 (-9) 9 (by norm_num) (by norm_num)
  have hpos : 0 < vector_length ((0 : ℝ), (-9 : ℝ)) := by rw [hlen]; norm_num
  exact ⟨hpos, (C4_collision_normal_spec (0, -9)).1 hpos,
    (C4_collision_normal_spec (0, -9)).2.2⟩

end ClaimC4

section ClaimC8

open BallSim

/-- C8: `compute_hexagon_vertices` is a pure function of (center,
circumradius, rotation angle): the vertex list is exactly
`center + circumradius * (cos (angle + i*2*pi/6), sin (angle + i*2*pi/6))`
for i = 0..5, two calls without an intervening advance give identical
output, and (for circumradius ≥ 0) every vertex lies at distance
exactly the circumradius from the center. -/
theorem C8_vertices_pure (c : BallSim.Vec) (r θ : ℝ) (hr : 0 ≤ r) :
    compute_hexagon_vertices c r θ =
      (List.range 6).map (fun i : ℕ => vector_add c (vector_mul
        (Real.cos (θ + (i : ℝ) * (2 * Real.pi / 6)),
         Real.sin (θ + (i : ℝ) * (2 * Real.pi / 6))) r)) ∧
    (∀ v ∈ compute_hexagon_vertices c r θ, vector_length (vector_sub v c) = r) ∧
    compute_hexagon_vertices c r θ = compute_hexagon_vertices c r θ := by
  refine ⟨?_, ?_, rfl⟩
  · rw [compute_hexagon_vertices]
    congr 1
    funext i
    simp only [vector_add, vector_mul, Prod.mk.injEq]
    constructor <;> ring
  · intro v hv
    rw [compute_hexagon_vertices] at hv
    simp only [List.mem_map, List.mem_range] at hv
    obtain ⟨i, _, hvi⟩ := hv
    subst hvi
    have hsub : vector_sub (c.1 + r * Real.cos (θ + i * (2 * Real.pi / 6)),
        c.2 + r * Real.sin (θ + i * (2 * Real.pi / 6))) c =
        (r * Real.cos (θ + i * (2 * Real.pi / 6)),
         r * Real.sin (θ + i * (2 * Real.pi / 6))) := by
      simp only [vector_sub, Prod.mk.injEq]
      constructor <;> ring
    rw [hsub]
    apply vector_length_eval _ _ _ hr
    linear_combination (r * r) * Real.sin_sq_add_cos_sq (θ + i * (2 * Real.pi / 6))

/-- C8 witness: the vertex formula applied to a hexagon centered at the
origin with circumradius 250 and rotation angle 0. -/
theorem C8_witness :
    (0 : ℝ) ≤ 250 ∧
    compute_hexagon_vertices ((0 : ℝ), (0 : ℝ)) 250 0 =
      (List.range 6).map (fun i : ℕ => vector_add ((0 : ℝ), (0 : ℝ)) (vector_mul
        (Real.cos ((0 : ℝ) + (i : ℝ) * (2 * Real.pi / 6)),
         Real.sin ((0 : ℝ) + (i : ℝ) * (2 * Real.pi / 6))) 250)) := by
  have hr : (0 : ℝ) ≤ 250 := by norm_num
  exact ⟨hr, (C8_vertices_pure ((0 : ℝ), (0 : ℝ)) 250 0 hr).1⟩

end ClaimC8

section ClaimC9

open BallSim

/-- C9: `closest_point_on_segment p a b` always returns a point of the
segment [a, b] (a point a + t*(b - a) with t in [0, 1]) that minimizes
the distance to p among all points of the segment; in particular, for
a zero-length edge (a = b) it returns the shared point a without
dividing by zero, and the function is total (no exception). -/
theorem C9_closest_point_spec (p a b : BallSim.Vec) :
    (a = b → closest_point_on_segment p a b = a) ∧
    (∃ t : ℝ, 0 ≤ t ∧ t ≤ 1 ∧ closest_point_on_segment p a b =
      (a.1 + t * (b.1 - a.1), a.2 + t * (b.2 - a.2))) ∧
    ∀ s : ℝ, 0 ≤ s → s ≤ 1 →
      vector_length (vector_sub p (closest_point_on_segment p a b)) ≤
        vector_length (vector_sub p (a.1 + s * (b.1 - a.1), a.2 + s * (b.2 - a.2))) := by
  refine ⟨?_, closest_point_on p a b, closest_point_min_len p a b⟩
  intro hab
  apply closest_point_zero
  rw [← hab]
  simp

/-- C9 witness: for the degenerate segment from (3, 3) to (3, 3) the
closest point to (0, 5) is the shared endpoint; for the segment from
(0, 0) to (10, 0), the closest point to (0, 5) is at least as close as
the segment point with parameter s = 1. -/
theorem C9_witness :
    closest_point_on_segment ((0 : ℝ), (5 : ℝ)) (3, 3) (3, 3) = (3, 3) ∧
    vector_length (vector_sub ((0 : ℝ), (5 : ℝ))
      (closest_point_on_segment ((0 : ℝ), (5 : ℝ)) (0, 0) (10, 0))) ≤
    vector_length (vector_sub ((0 : ℝ), (5 : ℝ))
      ((0 : ℝ) + 1 * ((10 : ℝ) - 0), (0 : ℝ) + 1 * ((0 : ℝ) - 0))) :=
  ⟨(C9_closest_point_spec ((0 : ℝ), (5 : ℝ)) (3, 3) (3, 3)).1 rfl,
   (C9_closest_point_spec ((0 : ℝ), (5 : ℝ)) (0, 0) (10, 0)).2.2 1 zero_le_one le_rfl⟩

end ClaimC9

section ClaimC7

open BallSim

theorem hexagon_vertices_concrete :
    compute_hexagon_vertices (250, 250) 250 0 =
      [((500 : ℝ), (250 : ℝ)),
       (375, 250 + 125 * Real.sqrt 3),
       (125, 250 + 125 * Real.sqrt 3),
       (0, 250),
       (125, 250 - 125 * Real.sqrt 3),
       (375, 250 - 125 * Real.sqrt 3)] := by
  rw [compute_hexagon_vertices, show List.range 6 = [0, 1, 2, 3, 4, 5] from rfl]
  simp only [List.map_cons, List.map_nil]
  push_cast
  simp only [List.cons.injEq, Prod.mk.injEq, and_true]
  refine ⟨⟨?_, ?_⟩, ⟨?_, ?_⟩, ⟨?_, ?_⟩, ⟨?_, ?_⟩, ⟨?_, ?_⟩, ⟨?_, ?_⟩⟩
  · rw [show (0 : ℝ) + 0 * (2 * Real.pi / 6) = 0 by ring, Real.cos_zero]; norm_num
  · rw [show (0 : ℝ) + 0 * (2 * Real.pi / 6) = 0 by ring, Real.sin_zero]; norm_num
  · rw [show (0 : ℝ) + 1 * (2 * Real.pi / 6) = Real.pi / 3 by ring,
      Real.cos_pi_div_three]; norm_num
  · rw [show (0 : ℝ) + 1 * (2 * Real.pi / 6) = Real.pi / 3 by ring,
      Real.sin_pi_div_three]; ring
  · rw [show (0 : ℝ) + 2 * (2 * Real.pi / 6) = Real.pi - Real.pi / 3 by ring,
      Real.cos_pi_sub, Real.cos_pi_div_three]; norm_num
  · rw [show (0 : ℝ) + 2 * (2 * Real.pi / 6) = Real.pi - Real.pi / 3 by ring,
      Real.sin_pi_sub, Real.sin_pi_div_three]; ring
  · rw [show (0 : ℝ) + 3 * (2 * Real.pi / 6) = Real.pi by ring, Real.cos_pi]; norm_num
  · rw [show (0 : ℝ) + 3 * (2 * Real.pi / 6) = Real.pi by ring, Real.sin_pi]; norm_num
  · rw [show (0 : ℝ) + 4 * (2 * Real.pi / 6) = 2 * Real.pi - (Real.pi - Real.pi / 3) by ring,
      Real.cos_two_pi_sub, Real.cos_pi_sub, Real.cos_pi_div_three]; norm_num
  · rw [show (0 : ℝ) + 4 * (2 * Real.pi / 6) = 2 * Real.pi - (Real.pi - Real.pi / 3) by ring,
      Real.sin_two_pi_sub, Real.sin_pi_sub, Real.sin_pi_div_three]; ring
  · rw [show (0 : ℝ) + 5 * (2 * Real.pi / 6) = 2 * Real.pi - Real.pi / 3 by ring,
      Real.cos_two_pi_sub, Real.cos_pi_div_three]; norm_num
  · rw [show (0 : ℝ) + 5 * (2 * Real.pi / 6) = 2 * Real.pi - Real.pi / 3 by ring,
      Real.sin_two_pi_sub, Real.sin_pi_div_three]; ring

theorem hexagon_edges_concrete :
    hexagon_edges (250, 250) 250 0 =
      [(((500 : ℝ), (250 : ℝ)), ((375 : ℝ), 250 + 125 * Real.sqrt 3)),
       (((375 : ℝ), 250 + 125 * Real.sqrt 3), ((125 : ℝ), 250 + 125 * Real.sqrt 3)),
       (((125 : ℝ), 250 + 125 * Real.sqrt 3), ((0 : ℝ), (250 : ℝ))),
       (((0 : ℝ), (250 : ℝ)), ((125 : ℝ), 250 - 125 * Real.sqrt 3)),
       (((125 : ℝ), 250 - 125 * Real.sqrt 3), ((375 : ℝ), 250 - 125 * Real.sqrt 3)),
       (((375 : ℝ), 250 - 125 * Real.sqrt 3), ((500 : ℝ), (250 : ℝ)))] := by
  simp only [hexagon_edges]
  rw [hexagon_vertices_concrete, show List.range 6 = [0, 1, 2, 3, 4, 5] from rfl]
  simp [List.getD]

theorem C7_edge_distances :
    ∀ e ∈ hexagon_edges (250, 250) 250 0, (15 : ℝ) <
      vector_length (vector_sub ((254.975 : ℝ), (250.4975 : ℝ))
        (closest_point_on_segment ((254.975 : ℝ), (250.4975 : ℝ)) e.1 e.2)) := by
  intro e he
  rw [hexagon_edges_concrete] at he
  simp only [List.mem_cons, List.not_mem_nil, or_false] at he
  have h3 : Real.sqrt 3 * Real.sqrt 3 = 3 := Real.mul_self_sqrt (by norm_num)
  have hgt : (1.732 : ℝ) < Real.sqrt 3 :=
    (Real.lt_sqrt (by norm_num)).2 (by norm_num)
  rcases he with h | h | h | h | h | h
  · subst h
    apply dist_gt_radius_of_line
    · simp only [len_sq, vector_sub]
      linear_combination (15625 : ℝ) * h3
    · simp only [dot, vector_sub, perpendicular]
      nlinarith [hgt]
  · subst h
    apply dist_gt_radius_of_line
    · simp only [len_sq, vector_sub]
      ring
    · simp only [dot, vector_sub, perpendicular]
      nlinarith [hgt]
  · subst h
    apply dist_gt_radius_of_line
    · simp only [len_sq, vector_sub]
      linear_combination (15625 : ℝ) * h3
    · simp only [dot, vector_sub, perpendicular]
      nlinarith [hgt]
  · subst h
    apply dist_gt_radius_of_line
    · simp only [len_sq, vector_sub]
      linear_combination (15625 : ℝ) * h3
    · simp only [dot, vector_sub, perpendicular]
      nlinarith [hgt]
  · subst h
    apply dist_gt_radius_of_line
    · simp only [len_sq, vector_sub]
      ring
    · simp only [dot, vector_sub, perpendicular]
      nlinarith [hgt]
  · subst h
    apply dist_gt_radius_of_line
    · simp only [len_sq, vector_sub]
      linear_combination (15625 : ℝ) * h3
    · simp only [dot, vector_sub, perpendicular]
      nlinarith [hgt]

/-- C7 counterexample: for the claim's scenario (ball at the center
(250, 250) with velocity (5, 0), gravity (0, 0.5), drag 0.995), the
code's position after one tick is (254.975, 250.4975): the y
coordinate is 250.4975, exactly 50 away from the claim's stated
approximately-200.4975. -/
theorem C7_counterexample :
    (physics_update ((250 : ℝ), (250 : ℝ)) ((5 : ℝ), (0 : ℝ))).1 = (254.975, 250.4975) ∧
    (250.4975 : ℝ) - 200.4975 = 50 ∧ (250.4975 : ℝ) ≠ 200.4975 := by
  refine ⟨?_, by norm_num, by norm_num⟩
  norm_num [physics_update, AIR_FRICTION, GRAVITY]

/-- C7 (amended): for a hexagon with circumradius 250 centered at
(250, 250), angular velocity 0 and rotation angle 0, a ball at the
center with velocity (5, 0) yields after one tick the velocity
(4.975, 0.4975) exactly and the position (254.975, 250.4975) exactly
(not y = 200.4975 as the claim stated), and no collision is detected:
the distance from the moved ball center to every hexagon edge exceeds
BALL_RADIUS. -/
theorem C7_concrete_tick :
    stepA (250, 250) 250 0 0 (250, 250) (5, 0) =
      ((254.975, 250.4975), (4.975, 0.4975)) ∧
    ∀ e ∈ hexagon_edges (250, 250) 250 0, BALL_RADIUS <
      vector_length (vector_sub ((254.975 : ℝ), (250.4975 : ℝ))
        (closest_point_on_segment ((254.975 : ℝ), (250.4975 : ℝ)) e.1 e.2)) := by
  have hzero : hexagon_edges (250, 250) 250 ((0 : ℝ) + 0) = hexagon_edges (250, 250) 250 0 := by
    norm_num
  have hphys : (physics_update ((250 : ℝ), (250 : ℝ)) ((5 : ℝ), (0 : ℝ))).1 =
      (254.975, 250.4975) := by
    norm_num [physics_update, AIR_FRICTION, GRAVITY]
  constructor
  · have h := stepA_no_collision (250, 250) 250 0 0 (250, 250) (5, 0) ?_
    · rw [h]; norm_num [AIR_FRICTION, GRAVITY]
    · intro e he
      rw [hzero] at he
      have hd := C7_edge_distances e he
      rw [hphys]
      exact le_of_lt hd
  · intro e he
    exact C7_edge_distances e he

/-- C7 witness: the no-collision conjunct instantiated at the first
hexagon edge, from (500, 250) to (375, 250 + 125 * sqrt 3). -/
theorem C7_witness :
    (((500 : ℝ), (250 : ℝ)), ((375 : ℝ), 250 + 125 * Real.sqrt 3)) ∈
      hexagon_edges (250, 250) 250 0 ∧
    BALL_RADIUS < vector_length (vector_sub ((254.975 : ℝ), (250.4975 : ℝ))
      (closest_point_on_segment ((254.975 : ℝ), (250.4975 : ℝ))
        ((500 : ℝ), (250 : ℝ)) ((375 : ℝ), 250 + 125 * Real.sqrt 3))) := by
  have hmem : (((500 : ℝ), (250 : ℝ)), ((375 : ℝ), 250 + 125 * Real.sqrt 3)) ∈
      hexagon_edges (250, 250) 250 0 := by
    rw [hexagon_edges_concrete]
    exact List.mem_cons_self _ _
  exact ⟨hmem, C7_concrete_tick.2
    (((500 : ℝ), (250 : ℝ)), ((375 : ℝ), 250 + 125 * Real.sqrt 3)) hmem⟩

end ClaimC7
